import Mathlib

/-!
# Verification development for `ir-score-notifier`

Shallow embedding of the scoring engine (`scorer.py`), the dictionary store
(`keyword_loader.py`), the keyword ranker (`auto_keywords_generator.py`) and
the decision/audit logger (`notifier.py`).

Modelling conventions:
* Python `float` arithmetic in the factor computations is modelled by exact
  rationals (`ℚ`); the literals involved (`0.2`, `20`, `1000`, …) are exact
  and every concrete input evaluated below is far from any floating-point
  representation or rounding boundary, so the rational model and the float
  computation agree at all inputs appearing in the theorems.
* Python `round` is round-half-to-even (`pyRound`); Python `int(...)`
  truncates toward zero (`pyInt`).
* Text is a `List Char`; a regex match of the pattern `\b<kw>\b` built by
  `re.escape` on a literal keyword is modelled character by character with
  the ASCII fragment of the `\w` class (`isWordChar`); `re.findall` is the
  left-to-right non-overlapping scan `findallCount`.
* File-system and network effects (dictionary files, HTTP delivery, the CSV
  ledger) are passed in explicitly as values describing their outcomes.
-/

/-- Python's built-in `round` on an exact rational: round half to even. -/
def pyRound (q : ℚ) : ℤ :=
  let f : ℤ := ⌊q⌋
  let r : ℚ := q - f
  if r < 1/2 then f
  else if 1/2 < r then f + 1
  else if f % 2 = 0 then f else f + 1

/-- Python's built-in `int(...)` on an exact rational: truncation toward zero. -/
def pyInt (q : ℚ) : ℤ := if 0 ≤ q then ⌊q⌋ else ⌈q⌉

/-- `frequency_factor` of `IRScorer._adjust_score_by_frequency`
(`scorer.py` line 134): `min(2.0, 1.0 + (count - 1) * 0.2)`. -/
def frequency_factor (count : ℕ) : ℚ := min 2 (1 + ((count : ℚ) - 1) * 0.2)

/-- `length_factor` of `IRScorer._adjust_score_by_frequency`
(`scorer.py` line 137): `min(1.0, 1000 / max(500, text_length))`. -/
def length_factor (text_length : ℕ) : ℚ :=
  min 1 (1000 / max 500 (text_length : ℚ))

/-- `IRScorer._adjust_score_by_frequency` (`scorer.py` lines 123-142):
`round(base_score * frequency_factor * length_factor)`. -/
def adjust_score_by_frequency (base_score : ℤ) (count : ℕ) (text_length : ℕ) : ℤ :=
  pyRound ((base_score : ℚ) * frequency_factor count * length_factor text_length)

/-- ASCII fragment of the `\w` character class used by Python's `re`
word boundary `\b`. -/
def isWordChar (c : Char) : Bool := c.isAlphanum || c == '_'

/-- Whether position `i` of `text` holds a word character
(positions outside the text count as non-word). -/
def charIsWord (text : List Char) (i : ℕ) : Bool :=
  match text.get? i with
  | some c => isWordChar c
  | none => false

/-- The regex word boundary `\b` at position `i`: word-ness changes between
the character before `i` and the character at `i`. -/
def boundaryAt (text : List Char) (i : ℕ) : Bool :=
  (if i = 0 then false else charIsWord text (i - 1)) != charIsWord text i

/-- A match of the compiled pattern `\b + re.escape(kw) + \b`
(`scorer.py` lines 112 and 117) starting at position `i` of `text`. -/
def matchAt (text kw : List Char) (i : ℕ) : Bool :=
  kw.isPrefixOf (text.drop i) && boundaryAt text i && boundaryAt text (i + kw.length)

/-- Left-to-right non-overlapping scan of `re.findall`: on a match at `i`
continue after the matched span, otherwise advance one position.  The first
argument is fuel bounding the number of scan steps; each step advances the
position by at least one and no match starts beyond `text.length`, so
`text.length + 1` steps always suffice. -/
def findallCountAux : ℕ → List Char → List Char → ℕ → ℕ
  | 0, _, _, _ => 0
  | fuel + 1, text, kw, i =>
    if i > text.length then 0
    else if matchAt text kw i then
      1 + findallCountAux fuel text kw (i + max 1 kw.length)
    else findallCountAux fuel text kw (i + 1)

/-- Number of matches `re.findall` returns for `\b + re.escape(kw) + \b`
on `text` (`len(pattern.findall(text))`, `scorer.py` lines 113-119). -/
def findallCount (text kw : List Char) : ℕ :=
  findallCountAux (text.length + 1) text kw 0

/-- Python's substring test `part in text`. -/
def isSubstring (part text : List Char) : Bool :=
  (List.range (text.length + 1)).any fun i => part.isPrefixOf (text.drop i)

/-- Python `str.split()` with no argument: split on runs of whitespace,
dropping empty parts (`keyword.split()`, `scorer.py` line 106). -/
def splitWsAux : List Char → List Char → List (List Char)
  | [], acc => if acc.isEmpty then [] else [acc.reverse]
  | c :: cs, acc =>
    if c.isWhitespace then
      if acc.isEmpty then splitWsAux cs [] else acc.reverse :: splitWsAux cs []
    else splitWsAux cs (c :: acc)

/-- `str.split()` on a character list. -/
def pySplit (s : List Char) : List (List Char) := splitWsAux s []

/-- `IRScorer._count_keywords` (`scorer.py` lines 92-121) applied to the
dictionary's key list: a space-containing keyword is counted only when all
its whitespace-split parts occur as substrings (`part in text`); every
space-free keyword is counted unconditionally, so its count may be `0`. -/
def count_keywords (keys : List String) (text : List Char) : List (String × ℕ) :=
  keys.filterMap fun kw =>
    if kw.data.contains ' ' then
      if (pySplit kw.data).all (fun part => isSubstring part text) then
        some (kw, findallCount text kw.data)
      else none
    else some (kw, findallCount text kw.data)

/-- State of `KeywordDictionary` (`keyword_loader.py`): the in-memory
`word -> score` mapping (association list in insertion order, keys unique)
and `source_type` (`None`, `"user"` or `"auto"`).  The `source_path` field
is not carried: the claims below consult only whether the source file
exists, which is passed explicitly where needed. -/
structure KeywordDictionary where
  keywords : List (String × ℤ)
  source_type : Option String
deriving DecidableEq

/-- `KeywordDictionary.get_word_score` (`keyword_loader.py` lines 131-139):
`self.keywords.get(word, 0)`. -/
def get_word_score (d : KeywordDictionary) (w : String) : ℤ :=
  (d.keywords.lookup w).getD 0

/-- `ScoringResult` (`scorer.py` lines 9-14).  The `document` field is the
input document passed through unchanged and is not carried here; the
document's body is the `content` argument of `calculate_score`. -/
structure ScoringResult where
  score : ℤ
  used_keywords : List (String × ℤ)
  dictionary_type : String
deriving DecidableEq

/-- The `used_keywords` mapping accumulated by the loop of
`IRScorer.calculate_score` (`scorer.py` lines 63-75): every counted keyword
with a positive dictionary score, with its frequency/length adjusted
contribution. -/
def used_keywords_of (d : KeywordDictionary) (content : List Char) : List (String × ℤ) :=
  (count_keywords (d.keywords.map Prod.fst) content).filterMap fun wc =>
    let keyword_score := get_word_score d wc.1
    if 0 < keyword_score then
      some (wc.1, adjust_score_by_frequency keyword_score wc.2 content.length)
    else none

/-- The `total_score` accumulated at `scorer.py` line 75: the sum of all
per-term adjusted contributions, before any clamping. -/
def total_contribution (d : KeywordDictionary) (content : List Char) : ℤ :=
  ((used_keywords_of d content).map Prod.snd).sum

/-- `IRScorer.calculate_score` (`scorer.py` lines 43-90), from the
empty-content check onward (the dictionary-loading guard of lines 32-41 is
`calculate_score_full` below).  `normalized_score` is
`min(100, max(0, min(100, total_score)))` as at line 78; Python's `round`
on the already-integral normalized score is the identity and is not
repeated. -/
def calculate_score (d : KeywordDictionary) (content : List Char) : ScoringResult :=
  if content.isEmpty then
    { score := 0, used_keywords := [], dictionary_type := d.source_type.getD "none" }
  else
    { score := min 100 (max 0 (min 100 (total_contribution d content)))
      used_keywords := used_keywords_of d content
      dictionary_type := d.source_type.getD "none" }

/-- `IRScorer.calculate_score` including the guard of `scorer.py` lines
32-41: when no dictionary is loaded, `keyword_dict.load()` is attempted;
its outcome (determined by the file system) is passed in as
`load_outcome`.  A failed load returns score 0 with provenance `"none"`. -/
def calculate_score_full (d : KeywordDictionary)
    (load_outcome : KeywordDictionary × Bool) (content : List Char) : ScoringResult :=
  if d.keywords.isEmpty then
    match load_outcome with
    | (d', true) => calculate_score d' content
    | (_, false) => { score := 0, used_keywords := [], dictionary_type := "none" }
  else calculate_score d content

/-! ## Dictionary loading (`keyword_loader.py`) -/

/-- Python `str.strip()`: remove leading and trailing whitespace. -/
def pyStrip (s : String) : String :=
  ⟨((s.data.dropWhile Char.isWhitespace).reverse.dropWhile Char.isWhitespace).reverse⟩

/-- Assignment `self.keywords[word] = score` on the insertion-ordered
mapping: an existing key keeps its position and gets the new value
(last write wins), a new key is appended. -/
def dictInsert (l : List (String × ℤ)) (k : String) (v : ℤ) : List (String × ℤ) :=
  if l.any (fun p => decide (p.1 = k)) then
    l.map fun p => if p.1 = k then (k, v) else p
  else l ++ [(k, v)]

/-- The row loop of `KeywordDictionary._load_user_dictionary`
(`keyword_loader.py` lines 74-81), run after `self.keywords = {}`.  A row is
the `word` cell (already through `str(...)`) together with the result of
`int(row['score'])`: `none` when that coercion raises.  The returned flag is
`false` when a row raised, in which case the accumulated partial mapping is
what `self.keywords` holds at the raise. -/
def build_user_keywords : List (String × Option ℤ) → List (String × ℤ) →
    List (String × ℤ) × Bool
  | [], acc => (acc, true)
  | (w, sc) :: rest, acc =>
    if pyStrip w = "" then build_user_keywords rest acc
    else match sc with
      | none => (acc, false)
      | some s => build_user_keywords rest (dictInsert acc (pyStrip w) s)

/-- `KeywordDictionary._load_user_dictionary` from the point where the
mapping is replaced (`self.keywords = {}`, line 74). -/
def load_user_dictionary (rows : List (String × Option ℤ)) :
    List (String × ℤ) × Bool :=
  build_user_keywords rows []

/-- The entry loop of `KeywordDictionary._load_auto_dictionary`
(`keyword_loader.py` lines 97-107), run after `self.keywords = {}`.  An
entry is the key (through `str(...)`) with its JSON value: `none` for a
non-numeric value (skipped with a warning), `some none` for a numeric value
whose `int(...)` coercion raises (a non-finite float), `some (some s)` for
an exact value. -/
def build_auto_keywords : List (String × Option (Option ℤ)) → List (String × ℤ) →
    List (String × ℤ) × Bool
  | [], acc => (acc, true)
  | (w, sc) :: rest, acc =>
    if pyStrip w = "" then build_auto_keywords rest acc
    else match sc with
      | none => build_auto_keywords rest acc
      | some none => (acc, false)
      | some (some s) => build_auto_keywords rest (dictInsert acc (pyStrip w) s)

/-- `KeywordDictionary._load_auto_dictionary` from the point where the
mapping is replaced (`self.keywords = {}`, line 97). -/
def load_auto_dictionary (rows : List (String × Option (Option ℤ))) :
    List (String × ℤ) × Bool :=
  build_auto_keywords rows []

/-- Contents of a dictionary source file as seen by the loader: `none`
when the file does not exist; `some (Except.error ())` when reading or
format validation fails before the in-memory mapping is replaced
(unsupported extension, unreadable file, missing `word`/`score` columns,
non-object JSON); `some (Except.ok rows)` when row iteration starts. -/
def SourceFile (row : Type) : Type := Option (Except Unit (List row))

/-- The auto-dictionary half of `KeywordDictionary.load`
(`keyword_loader.py` lines 37-52), entered with the state the user-
dictionary attempt left behind. -/
def load_auto_step (st : KeywordDictionary)
    (autoFile : SourceFile (String × Option (Option ℤ))) :
    KeywordDictionary × Bool :=
  match autoFile with
  | some (Except.ok rows) =>
    match load_auto_dictionary rows with
    | (kws, true) => ({ keywords := kws, source_type := some "auto" }, true)
    | (kws, false) => ({ st with keywords := kws }, false)
  | some (Except.error _) => (st, false)
  | none => (st, false)

/-- `KeywordDictionary.load` (`keyword_loader.py` lines 18-52): try the
user dictionary first; on any exception fall through to the auto
dictionary; when neither loads, return failure without touching what the
attempts left in `self.keywords`. -/
def load (st : KeywordDictionary)
    (userFile : SourceFile (String × Option ℤ))
    (autoFile : SourceFile (String × Option (Option ℤ))) :
    KeywordDictionary × Bool :=
  match userFile with
  | some (Except.ok rows) =>
    match load_user_dictionary rows with
    | (kws, true) => ({ keywords := kws, source_type := some "user" }, true)
    | (kws, false) => load_auto_step { st with keywords := kws } autoFile
  | some (Except.error _) => load_auto_step st autoFile
  | none => load_auto_step st autoFile

/-! ## Decision and audit logging (`notifier.py`) -/

/-- `NotificationResult` (`notifier.py` lines 13-17); the wall-clock
timestamp is not carried. -/
structure NotificationResult where
  success : Bool
  message : String
deriving DecidableEq

/-- One row of the per-day CSV ledger written by `IRNotifier._log_result`
(`notifier.py` lines 217-226).  The environment-dependent fields
(`datetime`, `symbol`, `title`, `keywords_used` rendering) are not carried;
the fields below are the ones the claims consult. -/
structure AuditRecord where
  score : ℤ
  notified : Bool
  dictionary_type : String
  message : String
deriving DecidableEq

/-- `IRNotifier._log_result` (`notifier.py` lines 198-244): append one row
to the per-day ledger (modelled as the list of rows of that day's file;
the header row and the file-system write are environment effects). -/
def log_result (ledger : List AuditRecord) (sr : ScoringResult)
    (nr : NotificationResult) : List AuditRecord :=
  ledger ++ [{ score := sr.score, notified := nr.success,
               dictionary_type := sr.dictionary_type, message := nr.message }]

/-- Outcome of the delivery environment seen by
`IRNotifier._send_slack_notification`: the webhook URL is missing or still
the placeholder; or the HTTP POST returns a status code; or an unexpected
exception is raised during delivery. -/
inductive DeliveryOutcome
  | unconfigured
  | http (status : ℕ)
  | raises (msg : String)

/-- `IRNotifier._send_slack_notification` (`notifier.py` lines 70-196):
returns a `NotificationResult` for the unconfigured, success and
HTTP-failure cases, and propagates an unexpected exception
(`Except.error`).  Message texts are abbreviated. -/
def send_slack_notification (_result : ScoringResult) (outcome : DeliveryOutcome) :
    Except String NotificationResult :=
  match outcome with
  | DeliveryOutcome.unconfigured =>
    Except.ok { success := false, message := "webhook URL not configured" }
  | DeliveryOutcome.http status =>
    if status = 200 then
      Except.ok { success := true, message := "sent" }
    else
      Except.ok { success := false, message := "delivery failed" }
  | DeliveryOutcome.raises msg => Except.error msg

/-- `IRNotifier.notify_if_significant` (`notifier.py` lines 26-68):
below-threshold results are logged and not sent; otherwise the delivery is
attempted, any exception is caught, and every branch logs exactly once. -/
def notify_if_significant (threshold : ℤ) (result : ScoringResult)
    (outcome : DeliveryOutcome) (ledger : List AuditRecord) :
    NotificationResult × List AuditRecord :=
  if result.score < threshold then
    let nr : NotificationResult := { success := false, message := "below threshold" }
    (nr, log_result ledger result nr)
  else
    match send_slack_notification result outcome with
    | Except.ok nr => (nr, log_result ledger result nr)
    | Except.error e =>
      let nr : NotificationResult := { success := false, message := "error: " ++ e }
      (nr, log_result ledger result nr)

/-! ## Keyword generation (`auto_keywords_generator.py`) -/

/-- The negative-event override set of
`AutoKeywordGenerator.generate_keywords` (`auto_keywords_generator.py`
line 185). -/
def special_negative : List String :=
  ["赤字", "損失", "減損", "訴訟", "倒産", "廃業", "解散", "上場廃止"]

/-- The positive-event override set (`auto_keywords_generator.py`
line 187). -/
def special_positive : List String :=
  ["黒字", "増益", "好調", "拡大", "成長", "提携", "買収"]

/-- Body of the keyword loop of `AutoKeywordGenerator.generate_keywords`
(`auto_keywords_generator.py` lines 173-190) for one kept term with its
mean TF-IDF weight: terms shorter than 2 characters are dropped; the score
is `min(10, max(1, int(weight * 20)))`, then raised to at least 8 or 6 for
the special negative/positive terms. -/
def assign_keyword_score (word : String) (weight : ℚ) : Option (String × ℤ) :=
  if word.length < 2 then none
  else
    let score_normalized := min 10 (max 1 (pyInt (weight * 20)))
    let score_overridden :=
      if special_negative.contains word then max 8 score_normalized
      else if special_positive.contains word then max 6 score_normalized
      else score_normalized
    some (word, score_overridden)

/-- The per-term score formula the specification states for the ranker:
`clamp(round(weight × 20), 1, 10)`.  Stated from the spec's words for
comparison with `assign_keyword_score`, which is the code's formula. -/
def spec_clamp_round_score (weight : ℚ) : ℤ := min 10 (max 1 (pyRound (weight * 20)))

/-- State of the dictionary artifacts on disk as seen by
`AutoKeywordGenerator.generate_dictionary`: whether a timestamped backup
copy has been produced, and the contents of the active auto-dictionary
file. -/
structure GenState where
  backupCreated : Bool
  autoDictFile : Option (List (String × ℤ))
deriving DecidableEq

/-- `KeywordDictionary.backup_current_dictionary` (`keyword_loader.py`
lines 109-129) as invoked by `generate_dictionary`: copies the loaded
source file when it exists, otherwise does nothing. -/
def backup_current_dictionary (sourceExists : Bool) (st : GenState) : GenState :=
  if sourceExists then { st with backupCreated := true } else st

/-- `AutoKeywordGenerator.generate_dictionary`
(`auto_keywords_generator.py` lines 199-237): back up the current source
file if one exists, then acquire the corpus (`fetch_ir_news`, whose result
is the `ir_texts` argument: that coroutine catches its own network errors
and returns the texts it managed to collect), then generate keywords
(`gen ir_texts`); an empty corpus or an empty generated mapping returns
`{}` without writing the auto-dictionary file. -/
def generate_dictionary (sourceExists : Bool) (ir_texts : List String)
    (gen : List String → List (String × ℤ)) (st : GenState) :
    List (String × ℤ) × GenState :=
  let st1 := backup_current_dictionary sourceExists st
  if ir_texts.isEmpty then ([], st1)
  else
    let keywords := gen ir_texts
    if keywords.isEmpty then ([], st1)
    else (keywords, { st1 with autoDictFile := some keywords })

/-! ## Predicates used by the statements -/

/-- A string with no leading and no trailing whitespace. -/
def trimmed (s : String) : Prop :=
  (∀ c, s.data.head? = some c → c.isWhitespace = false) ∧
  (∀ c, s.data.getLast? = some c → c.isWhitespace = false)

/-- The mapping entry `e` originates in the user-dictionary rows `rows`:
its term is the stripped `word` cell of some row whose `score` cell coerced
to `e`'s score. -/
def user_entry_origin (rows : List (String × Option ℤ)) (e : String × ℤ) : Prop :=
  ∃ w, (w, some e.2) ∈ rows ∧ pyStrip w = e.1

/-- The mapping entry `e` originates in the auto-dictionary entries
`rows`. -/
def auto_entry_origin (rows : List (String × Option (Option ℤ))) (e : String × ℤ) : Prop :=
  ∃ w, (w, some (some e.2)) ∈ rows ∧ pyStrip w = e.1

/-! ## Evaluation helpers for the rational arithmetic -/

theorem floor_eval {q : ℚ} {n : ℤ} (h1 : (n : ℚ) ≤ q) (h2 : q < n + 1) : ⌊q⌋ = n :=
  Int.floor_eq_iff.mpr ⟨h1, h2⟩

theorem pyRound_low {q : ℚ} {n : ℤ} (h1 : (n : ℚ) ≤ q) (h2 : q - n < 1/2) :
    pyRound q = n := by
  have hf : ⌊q⌋ = n := floor_eval h1 (by linarith)
  unfold pyRound
  rw [hf, if_pos h2]

theorem pyRound_high {q : ℚ} {n : ℤ} (h1 : (n : ℚ) ≤ q) (h1b : q < n + 1)
    (h2 : 1/2 < q - n) : pyRound q = n + 1 := by
  have hf : ⌊q⌋ = n := floor_eval h1 h1b
  unfold pyRound
  rw [hf, if_neg (by linarith), if_pos h2]

theorem frequency_factor_eval {c : ℕ} {v : ℚ}
    (h : 1 + ((c : ℚ) - 1) * 0.2 = v) (hv : v ≤ 2) : frequency_factor c = v := by
  unfold frequency_factor
  rw [h, min_eq_right hv]

theorem length_factor_eq_one {L : ℕ} (h : L ≤ 1000) : length_factor L = 1 := by
  unfold length_factor
  have hpos : (0 : ℚ) < max 500 (L : ℚ) := lt_max_of_lt_left (by norm_num)
  have hle : max 500 (L : ℚ) ≤ 1000 :=
    max_le (by norm_num) (by exact_mod_cast Nat.cast_le.mpr h)
  rw [min_eq_left ((one_le_div hpos).mpr hle)]

theorem length_factor_le_one (L : ℕ) : length_factor L ≤ 1 := min_le_left _ _

theorem length_factor_eq_div {L : ℕ} (h : 1000 ≤ L) :
    length_factor L = 1000 / (L : ℚ) := by
  unfold length_factor
  have h500 : (500 : ℚ) ≤ (L : ℚ) := by
    exact_mod_cast Nat.cast_le.mpr (le_trans (by norm_num) h)
  have hL : (1000 : ℚ) ≤ (L : ℚ) := by exact_mod_cast Nat.cast_le.mpr h
  rw [max_eq_right h500, min_eq_right ((div_le_one (by linarith)).mpr hL)]

theorem length_factor_strict_anti {L₁ L₂ : ℕ} (h1 : 1000 ≤ L₁) (h2 : L₁ < L₂) :
    length_factor L₂ < length_factor L₁ := by
  rw [length_factor_eq_div h1, length_factor_eq_div (le_trans h1 h2.le)]
  have hL₁ : (0 : ℚ) < (L₁ : ℚ) := by
    have : (0 : ℕ) < L₁ := lt_of_lt_of_le (by norm_num) h1
    exact_mod_cast this
  have hlt : (L₁ : ℚ) < (L₂ : ℚ) := by exact_mod_cast h2
  exact div_lt_div_of_pos_left (by norm_num) hL₁ hlt

/-! ## Helper lemmas for the dictionary store -/

theorem head?_dropWhile_not {α : Type} {p : α → Bool} {l : List α} {c : α}
    (h : (l.dropWhile p).head? = some c) : p c = false := by
  induction l with
  | nil => simp [List.dropWhile_nil] at h
  | cons x xs ih =>
    rw [List.dropWhile_cons] at h
    split at h
    · exact ih h
    · rename_i hx
      simp only [List.head?_cons, Option.some.injEq] at h
      subst h
      exact Bool.not_eq_true _ ▸ hx

theorem getLast?_dropWhile_of_ne_nil {α : Type} {p : α → Bool} {l : List α}
    (h : l.dropWhile p ≠ []) : (l.dropWhile p).getLast? = l.getLast? := by
  induction l with
  | nil => simp at h
  | cons x xs ih =>
    rw [List.dropWhile_cons]
    rw [List.dropWhile_cons] at h
    split
    · rename_i hx
      rw [if_pos hx] at h
      have hxs : xs ≠ [] := by
        intro h0
        subst h0
        exact h (by simp [List.dropWhile_nil])
      obtain ⟨y, ys, rfl⟩ := List.exists_cons_of_ne_nil hxs
      rw [List.getLast?_cons_cons]
      exact ih h
    · rfl

theorem pyStrip_trimmed (s : String) : trimmed (pyStrip s) := by
  constructor
  · intro c hc
    have hc' :
        ((((s.data.dropWhile Char.isWhitespace).reverse.dropWhile
          Char.isWhitespace)).reverse).head? = some c := hc
    rw [List.head?_reverse] at hc'
    have hne : ((s.data.dropWhile Char.isWhitespace).reverse.dropWhile
        Char.isWhitespace) ≠ [] := by
      intro h0
      rw [h0] at hc'
      simp at hc'
    rw [getLast?_dropWhile_of_ne_nil hne, List.getLast?_reverse] at hc'
    exact head?_dropWhile_not hc'
  · intro c hc
    have hc' :
        ((((s.data.dropWhile Char.isWhitespace).reverse.dropWhile
          Char.isWhitespace)).reverse).getLast? = some c := hc
    rw [List.getLast?_reverse] at hc'
    exact head?_dropWhile_not hc'

theorem mem_dictInsert {l : List (String × ℤ)} {k : String} {v : ℤ}
    {e : String × ℤ} (he : e ∈ dictInsert l k v) : e ∈ l ∨ e = (k, v) := by
  unfold dictInsert at he
  split at he
  · obtain ⟨p, hp, hpe⟩ := List.mem_map.1 he
    by_cases hk : p.1 = k
    · right
      rw [if_pos hk] at hpe
      exact hpe.symm
    · left
      rw [if_neg hk] at hpe
      exact hpe ▸ hp
  · rcases List.mem_append.1 he with h | h
    · exact Or.inl h
    · right
      simpa using h

theorem dictInsert_map_fst_nodup {l : List (String × ℤ)} {k : String} {v : ℤ}
    (h : (l.map Prod.fst).Nodup) : ((dictInsert l k v).map Prod.fst).Nodup := by
  unfold dictInsert
  split
  · have heq : ((l.map fun p => if p.1 = k then (k, v) else p).map Prod.fst) =
        l.map Prod.fst := by
      rw [List.map_map]
      apply List.map_congr_left
      intro p _
      by_cases hk : p.1 = k
      · simp [hk]
      · simp [hk]
    rw [heq]
    exact h
  · rename_i hany
    have hk : k ∉ l.map Prod.fst := by
      intro hmem
      obtain ⟨p, hp, hpk⟩ := List.mem_map.1 hmem
      exact hany (List.any_eq_true.2 ⟨p, hp, by simp [hpk]⟩)
    rw [List.map_append]
    rw [List.nodup_append]
    refine ⟨h, by simp, ?_⟩
    intro a ha hb
    simp only [List.map_cons, List.map_nil, List.mem_singleton] at hb
    subst hb
    exact hk ha

theorem lookup_append_right {k : String} {v : ℤ} {l : List (String × ℤ)}
    (h : ∀ p ∈ l, p.1 ≠ k) : (l ++ [(k, v)]).lookup k = some v := by
  induction l with
  | nil => simp [List.lookup]
  | cons p rest ih =>
    rw [List.cons_append]
    obtain ⟨a, b⟩ := p
    rw [List.lookup_cons]
    have hak : a ≠ k := h (a, b) (by simp)
    have : (k == a) = false := by
      simp [BEq.beq]
      exact fun hc => hak hc.symm
    rw [this]
    exact ih fun q hq => h q (List.mem_cons_of_mem _ hq)

theorem dictInsert_lookup (l : List (String × ℤ)) (k : String) (v : ℤ) :
    (dictInsert l k v).lookup k = some v := by
  induction l with
  | nil => simp [dictInsert, List.lookup]
  | cons p rest ih =>
    obtain ⟨a, b⟩ := p
    by_cases hk : a = k
    · subst hk
      unfold dictInsert
      rw [if_pos (by simp)]
      simp only [List.map_cons, if_pos rfl]
      rw [List.lookup_cons]
      simp
    · unfold dictInsert
      by_cases hany : rest.any (fun p => decide (p.1 = k)) = true
      · rw [if_pos (by simp only [List.any_cons]; rw [hany]; simp)]
        simp only [List.map_cons, if_neg hk]
        rw [List.lookup_cons]
        have : (k == a) = false := by
          simp [BEq.beq]
          exact fun hc => hk hc.symm
        rw [this]
        have ih2 := ih
        unfold dictInsert at ih2
        rw [if_pos hany] at ih2
        exact ih2
      · rw [if_neg (by
          simp only [List.any_cons, Bool.or_eq_true, decide_eq_true_eq]
          push_neg
          exact ⟨hk, by simpa using hany⟩)]
        rw [List.cons_append]
        rw [List.lookup_cons]
        have : (k == a) = false := by
          simp [BEq.beq]
          exact fun hc => hk hc.symm
        rw [this]
        apply lookup_append_right
        intro q hq hqk
        exact hany (List.any_eq_true.2 ⟨q, hq, by simp [hqk]⟩)

/-! ## Helper lemmas for the scoring engine -/

theorem calculate_score_bounds (d : KeywordDictionary) (content : List Char) :
    0 ≤ (calculate_score d content).score ∧ (calculate_score d content).score ≤ 100 := by
  unfold calculate_score
  split
  · simp
  · exact ⟨le_min (by norm_num) (le_max_left 0 _), min_le_left _ _⟩

theorem calculate_score_full_bounds (d : KeywordDictionary)
    (lo : KeywordDictionary × Bool) (content : List Char) :
    0 ≤ (calculate_score_full d lo content).score ∧
      (calculate_score_full d lo content).score ≤ 100 := by
  obtain ⟨d', b⟩ := lo
  unfold calculate_score_full
  cases b
  · split
    · simp
    · exact calculate_score_bounds d content
  · split
    · exact calculate_score_bounds d' content
    · exact calculate_score_bounds d content

theorem calculate_score_score_eq (d : KeywordDictionary) (content : List Char)
    (h : content.isEmpty = false) :
    (calculate_score d content).score =
      min 100 (max 0 (min 100 (total_contribution d content))) := by
  unfold calculate_score
  rw [if_neg (by simp [h])]

/-! ## Claim C9 -/

/-- C9: for every scoring result, threshold, delivery outcome and prior
ledger, `notify_if_significant` appends exactly one audit record to the
per-day ledger — in the below-threshold, unconfigured, delivery-failure,
delivery-success and caught-exception branches alike. -/
theorem notify_appends_exactly_one_record (threshold : ℤ) (result : ScoringResult)
    (outcome : DeliveryOutcome) (ledger : List AuditRecord) :
    ((notify_if_significant threshold result outcome ledger).2).length =
      ledger.length + 1 := by
  unfold notify_if_significant
  split
  · simp [log_result]
  · rcases outcome with _ | status | msg
    · simp [send_slack_notification, log_result]
    · by_cases hs : status = 200 <;>
        simp [send_slack_notification, hs, log_result]
    · simp [send_slack_notification, log_result]

/-! ## Claim C10 -/

/-- C10: `generate_dictionary` backs up an existing dictionary source file
before acquiring any corpus text, so when the corpus is empty or keyword
generation produces nothing it returns an empty mapping with the active
auto-dictionary file untouched while the backup has already been created. -/
theorem generate_dictionary_failure_preserves_file (sourceExists : Bool)
    (ir_texts : List String) (gen : List String → List (String × ℤ)) (st : GenState)
    (h : ir_texts.isEmpty = true ∨ (gen ir_texts).isEmpty = true) :
    (generate_dictionary sourceExists ir_texts gen st).1 = [] ∧
    (generate_dictionary sourceExists ir_texts gen st).2.autoDictFile = st.autoDictFile ∧
    (sourceExists = true →
      (generate_dictionary sourceExists ir_texts gen st).2.backupCreated = true) := by
  unfold generate_dictionary backup_current_dictionary
  by_cases he : ir_texts.isEmpty
  · cases sourceExists <;> simp [he]
  · have hg : (gen ir_texts).isEmpty = true := by
      rcases h with h | h
      · exact absurd h he
      · exact h
    cases sourceExists <;> simp [he, hg]

/-- Witness for C10 at a concrete state: a prior source file exists, the
corpus comes back empty, and the backup is created while the active file
keeps its old contents. -/
theorem generate_dictionary_failure_witness :
    (generate_dictionary true [] (fun _ => []) ⟨false, some [("a", 1)]⟩).1 = [] ∧
    (generate_dictionary true [] (fun _ => []) ⟨false, some [("a", 1)]⟩).2.autoDictFile =
      some [("a", 1)] ∧
    (generate_dictionary true [] (fun _ => []) ⟨false, some [("a", 1)]⟩).2.backupCreated =
      true := by
  have h := generate_dictionary_failure_preserves_file true [] (fun _ => [])
    ⟨false, some [("a", 1)]⟩ (Or.inl rfl)
  exact ⟨h.1, h.2.1, h.2.2 rfl⟩

/-! ## Claim C2 -/

/-- C2: the score of every scoring result lies in [0, 100], and for a
non-empty body it equals the clamp of the summed per-term contributions:
the contributions are summed first and only the total is clamped
(`total_contribution` is the unclamped per-term sum). -/
theorem score_bounded_and_only_total_clamped :
    (∀ (d : KeywordDictionary) (lo : KeywordDictionary × Bool) (content : List Char),
      0 ≤ (calculate_score_full d lo content).score ∧
        (calculate_score_full d lo content).score ≤ 100) ∧
    (∀ (d : KeywordDictionary) (content : List Char), content.isEmpty = false →
      (calculate_score d content).score =
        min 100 (max 0 (min 100 (total_contribution d content)))) :=
  ⟨calculate_score_full_bounds, calculate_score_score_eq⟩

/-- Witness for C2 at a loaded dictionary and a one-word body. -/
theorem score_bounded_witness :
    (0 ≤ (calculate_score_full ⟨[("merger", 100)], some "user"⟩ (⟨[], none⟩, false)
        "merger".data).score ∧
      (calculate_score_full ⟨[("merger", 100)], some "user"⟩ (⟨[], none⟩, false)
        "merger".data).score ≤ 100) ∧
    (calculate_score ⟨[("merger", 100)], some "user"⟩ "merger".data).score =
      min 100 (max 0 (min 100
        (total_contribution ⟨[("merger", 100)], some "user"⟩ "merger".data))) :=
  ⟨score_bounded_and_only_total_clamped.1 _ _ _,
   score_bounded_and_only_total_clamped.2 _ _ rfl⟩

/-! ## Claim C3 -/

/-- C3 counterexample: with a loaded user dictionary, an empty body yields
dictionary provenance `"user"`, not `"none"` as the claim states. -/
theorem empty_body_provenance_counterexample :
    (calculate_score ⟨[("赤字", 8)], some "user"⟩ []).dictionary_type = "user" ∧
    "user" ≠ "none" := ⟨rfl, by decide⟩

/-- C3 amended: for every loaded (non-empty) dictionary, a document with
an empty body scores 0 with empty contributions, and its provenance is the
loaded dictionary's source type (`"none"` only when no source type is
set). -/
theorem empty_body_result (d : KeywordDictionary) (lo : KeywordDictionary × Bool)
    (content : List Char) (hd : d.keywords.isEmpty = false)
    (hc : content.isEmpty = true) :
    calculate_score_full d lo content =
      { score := 0, used_keywords := [],
        dictionary_type := d.source_type.getD "none" } := by
  unfold calculate_score_full calculate_score
  rw [if_neg (by simp [hd]), if_pos hc]

/-- Witness for C3 (amended) at a loaded auto dictionary. -/
theorem empty_body_result_witness :
    calculate_score_full ⟨[("X", 5)], some "auto"⟩ (⟨[], none⟩, false) [] =
      { score := 0, used_keywords := [], dictionary_type := "auto" } :=
  empty_body_result _ _ _ rfl rfl

/-! ## Claim C8 -/

/-- C8 counterexample: the length factor is not strictly decreasing beyond
length 500 — lengths 501 and 999 (both beyond 500) give the same factor. -/
theorem length_factor_counterexample :
    length_factor 999 = length_factor 501 ∧ 500 < 501 ∧ 501 < 999 := by
  refine ⟨?_, by norm_num, by norm_num⟩
  rw [length_factor_eq_one (by norm_num), length_factor_eq_one (by norm_num)]

/-- C8 amended: the length factor equals 1 for every length up to 1000
characters (hence for every length ≤ 500), never exceeds 1, and is
strictly decreasing from length 1000 on. -/
theorem length_factor_profile :
    (∀ L : ℕ, L ≤ 1000 → length_factor L = 1) ∧
    (∀ L : ℕ, length_factor L ≤ 1) ∧
    (∀ L₁ L₂ : ℕ, 1000 ≤ L₁ → L₁ < L₂ → length_factor L₂ < length_factor L₁) :=
  ⟨fun _ h => length_factor_eq_one h, length_factor_le_one,
   fun _ _ h1 h2 => length_factor_strict_anti h1 h2⟩

/-- Witness for C8 (amended) at concrete lengths. -/
theorem length_factor_profile_witness :
    length_factor 300 = 1 ∧ length_factor 1500 ≤ 1 ∧
    length_factor 2000 < length_factor 1500 :=
  ⟨length_factor_profile.1 300 (by norm_num), length_factor_profile.2.1 1500,
   length_factor_profile.2.2 1500 2000 (by norm_num) (by norm_num)⟩

/-! ## Claim C7 -/

/-- C7 counterexample: at mean weight 49/100 the code assigns
`min(10, max(1, int(9.8))) = 9`, while the claimed formula
`clamp(round(weight × 20), 1, 10)` gives 10: the code truncates, it does
not round. -/
theorem ranker_truncation_counterexample :
    assign_keyword_score "merger" (49/100) = some ("merger", 9) ∧
    spec_clamp_round_score (49/100) = 10 := by
  constructor
  · unfold assign_keyword_score
    rw [if_neg (by decide)]
    have h1 : special_negative.contains "merger" = false := by decide
    have h2 : special_positive.contains "merger" = false := by decide
    simp only [h1, h2, Bool.false_eq_true, if_false]
    have h3 : pyInt ((49/100 : ℚ) * 20) = 9 := by
      unfold pyInt
      rw [if_pos (by norm_num)]
      exact floor_eval (by norm_num) (by norm_num)
    rw [h3]
    have h5 : min 10 (max 1 (9 : ℤ)) = 9 := by omega
    rw [h5]
  · unfold spec_clamp_round_score
    have h4 : pyRound ((49/100 : ℚ) * 20) = 10 := by
      have h := pyRound_high (n := 9) (q := (49/100 : ℚ) * 20)
        (by norm_num) (by norm_num) (by norm_num)
      rw [h]
      norm_num
    rw [h4]
    have h6 : min 10 (max 1 (10 : ℤ)) = 10 := by omega
    rw [h6]

/-- C7 amended: for every kept term (length ≥ 2, not in either override
set) with nonnegative mean weight `w`, the assigned score is
`clamp(trunc(w × 20), 1, 10)` — `int()` truncation, not rounding — and it
lies in [1, 10]. -/
theorem ranker_score_formula (word : String) (w : ℚ)
    (hlen : ¬ word.length < 2)
    (hneg : special_negative.contains word = false)
    (hpos : special_positive.contains word = false)
    (hw : 0 ≤ w) :
    assign_keyword_score word w = some (word, min 10 (max 1 ⌊w * 20⌋)) ∧
    1 ≤ min 10 (max 1 ⌊w * 20⌋) ∧ min 10 (max 1 ⌊w * 20⌋) ≤ 10 := by
  refine ⟨?_, le_min (by norm_num) (le_max_left 1 _), min_le_left _ _⟩
  unfold assign_keyword_score
  rw [if_neg hlen]
  simp only [hneg, hpos, Bool.false_eq_true, if_false]
  have h3 : pyInt (w * 20) = ⌊w * 20⌋ := by
    unfold pyInt
    rw [if_pos (by positivity)]
  rw [h3]

/-- Witness for C7 (amended) at a concrete kept term. -/
theorem ranker_score_formula_witness :
    assign_keyword_score "deal" (1/10) =
      some ("deal", min 10 (max 1 ⌊(1/10 : ℚ) * 20⌋)) ∧
    1 ≤ min 10 (max 1 ⌊(1/10 : ℚ) * 20⌋) ∧
    min 10 (max 1 ⌊(1/10 : ℚ) * 20⌋) ≤ 10 :=
  ranker_score_formula "deal" (1/10) (by decide) (by decide) (by decide) (by norm_num)

/-! ## Claim C1 -/

/-- The adjusted contribution of a zero-match term in a 5-character body:
`round(5 × 0.8 × 1.0) = 4`. -/
theorem adjust_score_five_zero_five : adjust_score_by_frequency 5 0 5 = 4 := by
  unfold adjust_score_by_frequency
  rw [frequency_factor_eval (c := 0) (v := 4/5) (by norm_num) (by norm_num),
    length_factor_eq_one (by norm_num)]
  exact pyRound_low (n := 4) (by norm_num) (by norm_num)

/-- C1: the dictionary term `"merger"` has zero word-boundary matches in
the body `"hello"`, yet the contribution mapping contains it (the loop
keeps every counted term with positive base score, and `_count_keywords`
records single-word terms even at count 0) and the total score becomes 4
instead of 0.  This contradicts the claim and the repository's own test
`test_calculate_score_low`, which requires `used_keywords` to be empty
when no keyword occurs. -/
theorem zero_match_term_contributes :
    calculate_score ⟨[("merger", 5)], some "user"⟩ "hello".data =
      { score := 4, used_keywords := [("merger", 4)], dictionary_type := "user" } ∧
    findallCount "hello".data "merger".data = 0 := by
  constructor
  · have hused : used_keywords_of ⟨[("merger", 5)], some "user"⟩ "hello".data =
        [("merger", 4)] := by
      unfold used_keywords_of
      have hc : count_keywords
          ((⟨[("merger", 5)], some "user"⟩ : KeywordDictionary).keywords.map Prod.fst)
          "hello".data = [("merger", 0)] := by decide
      rw [hc]
      have hg : get_word_score ⟨[("merger", 5)], some "user"⟩ "merger" = 5 := by decide
      have hlen : "hello".data.length = 5 := by decide
      simp only [List.filterMap_cons, List.filterMap_nil, hg, hlen]
      rw [if_pos (by norm_num)]
      rw [adjust_score_five_zero_five]
    unfold calculate_score
    rw [if_neg (by decide)]
    have htot : total_contribution ⟨[("merger", 5)], some "user"⟩ "hello".data = 4 := by
      unfold total_contribution
      rw [hused]
      simp
    rw [htot, hused]
    have hmm : min 100 (max 0 (min 100 (4 : ℤ))) = 4 := by omega
    rw [hmm]
    rfl
  · decide

/-! ## Helper lemmas for load -/

theorem user_entry_origin_cons {r : String × Option ℤ}
    {rows : List (String × Option ℤ)} {e : String × ℤ}
    (h : user_entry_origin rows e) : user_entry_origin (r :: rows) e := by
  obtain ⟨w, hmem, hs⟩ := h
  exact ⟨w, List.mem_cons_of_mem _ hmem, hs⟩

theorem auto_entry_origin_cons {r : String × Option (Option ℤ)}
    {rows : List (String × Option (Option ℤ))} {e : String × ℤ}
    (h : auto_entry_origin rows e) : auto_entry_origin (r :: rows) e := by
  obtain ⟨w, hmem, hs⟩ := h
  exact ⟨w, List.mem_cons_of_mem _ hmem, hs⟩

theorem build_user_keywords_origin :
    ∀ (rows : List (String × Option ℤ)) (acc : List (String × ℤ)) (e : String × ℤ),
      e ∈ (build_user_keywords rows acc).1 → e ∈ acc ∨ user_entry_origin rows e := by
  intro rows
  induction rows with
  | nil =>
    intro acc e he
    exact Or.inl he
  | cons r rest ih =>
    intro acc e he
    obtain ⟨w, sc⟩ := r
    unfold build_user_keywords at he
    by_cases hw : pyStrip w = ""
    · rw [if_pos hw] at he
      rcases ih acc e he with h | h
      · exact Or.inl h
      · exact Or.inr (user_entry_origin_cons h)
    · rw [if_neg hw] at he
      cases sc with
      | none => exact Or.inl he
      | some s =>
        rcases ih _ e he with h | h
        · rcases mem_dictInsert h with h2 | h2
          · exact Or.inl h2
          · subst h2
            exact Or.inr ⟨w, List.mem_cons_self _ _, rfl⟩
        · exact Or.inr (user_entry_origin_cons h)

theorem build_auto_keywords_origin :
    ∀ (rows : List (String × Option (Option ℤ))) (acc : List (String × ℤ))
      (e : String × ℤ),
      e ∈ (build_auto_keywords rows acc).1 → e ∈ acc ∨ auto_entry_origin rows e := by
  intro rows
  induction rows with
  | nil =>
    intro acc e he
    exact Or.inl he
  | cons r rest ih =>
    intro acc e he
    obtain ⟨w, sc⟩ := r
    unfold build_auto_keywords at he
    by_cases hw : pyStrip w = ""
    · rw [if_pos hw] at he
      rcases ih acc e he with h | h
      · exact Or.inl h
      · exact Or.inr (auto_entry_origin_cons h)
    · rw [if_neg hw] at he
      match sc with
      | none =>
        rcases ih acc e he with h | h
        · exact Or.inl h
        · exact Or.inr (auto_entry_origin_cons h)
      | some none => exact Or.inl he
      | some (some s) =>
        rcases ih _ e he with h | h
        · rcases mem_dictInsert h with h2 | h2
          · exact Or.inl h2
          · subst h2
            exact Or.inr ⟨w, List.mem_cons_self _ _, rfl⟩
        · exact Or.inr (auto_entry_origin_cons h)

theorem build_user_keywords_good :
    ∀ (rows : List (String × Option ℤ)) (acc : List (String × ℤ)),
      (∀ e ∈ acc, e.1 ≠ "" ∧ trimmed e.1) → (acc.map Prod.fst).Nodup →
      (∀ e ∈ (build_user_keywords rows acc).1, e.1 ≠ "" ∧ trimmed e.1) ∧
      ((build_user_keywords rows acc).1.map Prod.fst).Nodup := by
  intro rows
  induction rows with
  | nil =>
    intro acc h1 h2
    exact ⟨h1, h2⟩
  | cons r rest ih =>
    intro acc h1 h2
    obtain ⟨w, sc⟩ := r
    unfold build_user_keywords
    by_cases hw : pyStrip w = ""
    · rw [if_pos hw]
      exact ih acc h1 h2
    · rw [if_neg hw]
      cases sc with
      | none => exact ⟨h1, h2⟩
      | some s =>
        apply ih
        · intro e he
          rcases mem_dictInsert he with h | h
          · exact h1 e h
          · rw [h]
            exact ⟨hw, pyStrip_trimmed w⟩
        · exact dictInsert_map_fst_nodup h2

theorem build_auto_keywords_good :
    ∀ (rows : List (String × Option (Option ℤ))) (acc : List (String × ℤ)),
      (∀ e ∈ acc, e.1 ≠ "" ∧ trimmed e.1) → (acc.map Prod.fst).Nodup →
      (∀ e ∈ (build_auto_keywords rows acc).1, e.1 ≠ "" ∧ trimmed e.1) ∧
      ((build_auto_keywords rows acc).1.map Prod.fst).Nodup := by
  intro rows
  induction rows with
  | nil =>
    intro acc h1 h2
    exact ⟨h1, h2⟩
  | cons r rest ih =>
    intro acc h1 h2
    obtain ⟨w, sc⟩ := r
    unfold build_auto_keywords
    by_cases hw : pyStrip w = ""
    · rw [if_pos hw]
      exact ih acc h1 h2
    · rw [if_neg hw]
      match sc with
      | none => exact ih acc h1 h2
      | some none => exact ⟨h1, h2⟩
      | some (some s) =>
        apply ih
        · intro e he
          rcases mem_dictInsert he with h | h
          · exact h1 e h
          · rw [h]
            exact ⟨hw, pyStrip_trimmed w⟩
        · exact dictInsert_map_fst_nodup h2

theorem load_auto_step_keywords (st : KeywordDictionary)
    (af : SourceFile (String × Option (Option ℤ))) :
    (load_auto_step st af).1.keywords = st.keywords ∨
    (∃ rows, af = some (Except.ok rows) ∧
      ∀ e ∈ (load_auto_step st af).1.keywords, auto_entry_origin rows e) := by
  rcases af with _ | ef
  · exact Or.inl rfl
  · rcases ef with he | rows
    · exact Or.inl rfl
    · right
      refine ⟨rows, rfl, ?_⟩
      intro e he
      rcases hb : load_auto_dictionary rows with ⟨kws, b⟩
      cases b <;> simp only [load_auto_step, hb] at he
      · have he' : e ∈ (load_auto_dictionary rows).1 := by
          rw [hb]
          exact he
        rcases build_auto_keywords_origin rows [] e he' with h | h
        · cases h
        · exact h
      · have he' : e ∈ (load_auto_dictionary rows).1 := by
          rw [hb]
          exact he
        rcases build_auto_keywords_origin rows [] e he' with h | h
        · cases h
        · exact h

theorem load_auto_step_success {st : KeywordDictionary}
    {af : SourceFile (String × Option (Option ℤ))} {st' : KeywordDictionary}
    (h : load_auto_step st af = (st', true)) :
    ∃ rows, af = some (Except.ok rows) ∧
      st'.keywords = (load_auto_dictionary rows).1 := by
  rcases af with _ | ef
  · simp [load_auto_step, Prod.ext_iff] at h
  · rcases ef with he | rows
    · simp [load_auto_step, Prod.ext_iff] at h
    · refine ⟨rows, rfl, ?_⟩
      rcases hb : load_auto_dictionary rows with ⟨kws, b⟩
      cases b <;> simp only [load_auto_step, hb] at h
      · simp [Prod.ext_iff] at h
      · have hst : st' = { keywords := kws, source_type := some "auto" } :=
          (congrArg Prod.fst h).symm
        rw [hst]

theorem load_success_keywords {st : KeywordDictionary}
    {uf : SourceFile (String × Option ℤ)}
    {af : SourceFile (String × Option (Option ℤ))} {st' : KeywordDictionary}
    (h : load st uf af = (st', true)) :
    (∃ rows, st'.keywords = (load_user_dictionary rows).1) ∨
    (∃ rows, st'.keywords = (load_auto_dictionary rows).1) := by
  rcases uf with _ | ef
  · obtain ⟨rows, _, hk⟩ := load_auto_step_success h
    exact Or.inr ⟨rows, hk⟩
  · rcases ef with he | rows
    · obtain ⟨rows, _, hk⟩ := load_auto_step_success h
      exact Or.inr ⟨rows, hk⟩
    · rcases hu : load_user_dictionary rows with ⟨kws, b⟩
      cases b <;> simp only [load, hu] at h
      · obtain ⟨arows, _, hk⟩ := load_auto_step_success h
        exact Or.inr ⟨arows, hk⟩
      · have hst : st' = { keywords := kws, source_type := some "user" } :=
          (congrArg Prod.fst h).symm
        left
        refine ⟨rows, ?_⟩
        rw [hst, hu]

/-! ## Claim C4 -/

/-- C4 counterexample: a parse error on the second row of the curated file
(with no auto dictionary present) makes `load` fail while leaving the
mapping holding the partial new entry `("a", 3)` — the prior mapping
`[("old", 5)]` is not preserved by the failed load. -/
theorem load_failure_changes_mapping_counterexample :
    load ⟨[("old", 5)], some "user"⟩
        (some (Except.ok [("a", some 3), ("b", none)])) none =
      (⟨[("a", 3)], some "user"⟩, false) ∧
    ([("a", 3)] : List (String × ℤ)) ≠ [("old", 5)] := by decide

/-- C4 amended: `load` rebinds the mapping to a fresh dictionary before
parsing a source, so after any `load` the mapping is either exactly the
prior mapping or consists solely of entries parsed from one source's rows
— never a mixture of old and new entries; however, a `load` that fails
after a mid-parse error may leave such a partial new mapping rather than
the prior one. -/
theorem load_never_mixes_old_and_new (st : KeywordDictionary)
    (uf : SourceFile (String × Option ℤ))
    (af : SourceFile (String × Option (Option ℤ))) :
    (load st uf af).1.keywords = st.keywords ∨
    (∃ rows, uf = some (Except.ok rows) ∧
      ∀ e ∈ (load st uf af).1.keywords, user_entry_origin rows e) ∨
    (∃ rows, af = some (Except.ok rows) ∧
      ∀ e ∈ (load st uf af).1.keywords, auto_entry_origin rows e) := by
  rcases uf with _ | ef
  · simp only [load]
    rcases load_auto_step_keywords st af with h | ⟨rows, ha, h⟩
    · exact Or.inl h
    · exact Or.inr (Or.inr ⟨rows, ha, h⟩)
  · rcases ef with he | rows
    · simp only [load]
      rcases load_auto_step_keywords st af with h | ⟨rows, ha, h⟩
      · exact Or.inl h
      · exact Or.inr (Or.inr ⟨rows, ha, h⟩)
    · rcases hu : load_user_dictionary rows with ⟨kws, b⟩
      cases b
      · have hred : load st (some (Except.ok rows)) af =
            load_auto_step { st with keywords := kws } af := by
          simp only [load, hu]
        rw [hred]
        rcases load_auto_step_keywords { st with keywords := kws } af with
          h | ⟨arows, ha, h⟩
        · right
          left
          refine ⟨rows, rfl, ?_⟩
          intro e he
          rw [h] at he
          have he' : e ∈ (load_user_dictionary rows).1 := by
            rw [hu]
            exact he
          rcases build_user_keywords_origin rows [] e he' with h2 | h2
          · cases h2
          · exact h2
        · exact Or.inr (Or.inr ⟨arows, ha, h⟩)
      · have hred : load st (some (Except.ok rows)) af =
            ({ keywords := kws, source_type := some "user" }, true) := by
          simp only [load, hu]
        rw [hred]
        right
        left
        refine ⟨rows, rfl, ?_⟩
        intro e he
        have he' : e ∈ (load_user_dictionary rows).1 := by
          rw [hu]
          exact he
        rcases build_user_keywords_origin rows [] e he' with h2 | h2
        · cases h2
        · exact h2

/-! ## Claim C5 -/

/-- C5 counterexample: when neither source file is present, `load` fails
without raising but leaves the mapping exactly as it was — here non-empty
— rather than leaving an empty mapping. -/
theorem load_neither_source_counterexample :
    (load ⟨[("x", 1)], none⟩ none none).2 = false ∧
    (load ⟨[("x", 1)], none⟩ none none).1.keywords = [("x", 1)] ∧
    ([("x", 1)] : List (String × ℤ)) ≠ ([] : List (String × ℤ)) := by decide

/-- C5 amended: load precedence — a parseable curated file yields
provenance `"user"`; a curated read error, or a curated mid-parse failure,
advances to the generated file, whose successful parse yields provenance
`"auto"`; with neither source present `load` returns failure without
raising, leaving the mapping unchanged (hence still empty when nothing had
been loaded). -/
theorem load_precedence :
    (∀ (st : KeywordDictionary) (rows : List (String × Option ℤ))
      (af : SourceFile (String × Option (Option ℤ))),
      (load_user_dictionary rows).2 = true →
      (load st (some (Except.ok rows)) af).1.source_type = some "user" ∧
        (load st (some (Except.ok rows)) af).2 = true) ∧
    (∀ (st : KeywordDictionary) (arows : List (String × Option (Option ℤ))),
      (load_auto_dictionary arows).2 = true →
      (load st (some (Except.error ())) (some (Except.ok arows))).1.source_type =
        some "auto" ∧
        (load st (some (Except.error ())) (some (Except.ok arows))).2 = true) ∧
    (∀ (st : KeywordDictionary) (rows : List (String × Option ℤ))
      (arows : List (String × Option (Option ℤ))),
      (load_user_dictionary rows).2 = false →
      (load_auto_dictionary arows).2 = true →
      (load st (some (Except.ok rows)) (some (Except.ok arows))).1.source_type =
        some "auto" ∧
        (load st (some (Except.ok rows)) (some (Except.ok arows))).2 = true) ∧
    (∀ st : KeywordDictionary, load st none none = (st, false)) := by
  refine ⟨?_, ?_, ?_, fun st => rfl⟩
  · intro st rows af h
    rcases hu : load_user_dictionary rows with ⟨kws, b⟩
    rw [hu] at h
    have hb : b = true := h
    subst hb
    simp only [load, hu]
    exact ⟨trivial, trivial⟩
  · intro st arows h
    rcases hb : load_auto_dictionary arows with ⟨kws, b⟩
    rw [hb] at h
    have hb2 : b = true := h
    subst hb2
    simp only [load, load_auto_step, hb]
    exact ⟨trivial, trivial⟩
  · intro st rows arows hu1 ha1
    rcases hu : load_user_dictionary rows with ⟨kws, b⟩
    rw [hu] at hu1
    have hb : b = false := hu1
    subst hb
    rcases hb2 : load_auto_dictionary arows with ⟨kws2, b2⟩
    rw [hb2] at ha1
    have hb3 : b2 = true := ha1
    subst hb3
    simp only [load, hu, load_auto_step, hb2]
    exact ⟨trivial, trivial⟩

/-- Witness for C5 (amended) at concrete file contents. -/
theorem load_precedence_witness :
    ((load ⟨[], none⟩ (some (Except.ok [("a", some 1)])) none).1.source_type =
        some "user" ∧
      (load ⟨[], none⟩ (some (Except.ok [("a", some 1)])) none).2 = true) ∧
    ((load ⟨[], none⟩ (some (Except.error ()))
        (some (Except.ok [("b", some (some 2))]))).1.source_type = some "auto" ∧
      (load ⟨[], none⟩ (some (Except.error ()))
        (some (Except.ok [("b", some (some 2))]))).2 = true) ∧
    ((load ⟨[], none⟩ (some (Except.ok [("c", none)]))
        (some (Except.ok [("b", some (some 2))]))).1.source_type = some "auto" ∧
      (load ⟨[], none⟩ (some (Except.ok [("c", none)]))
        (some (Except.ok [("b", some (some 2))]))).2 = true) ∧
    load ⟨[], none⟩ none none = (⟨[], none⟩, false) :=
  ⟨load_precedence.1 _ _ _ (by decide),
   load_precedence.2.1 _ _ (by decide),
   load_precedence.2.2.1 _ _ _ (by decide) (by decide),
   load_precedence.2.2.2 _⟩

/-! ## Claim C6 -/

/-- C6 counterexample: a curated row with score 99 loads successfully and
is stored as 99 — no [0, 10] range check is applied on load. -/
theorem load_score_range_counterexample :
    load ⟨[], none⟩ (some (Except.ok [("crash", some 99)])) none =
      (⟨[("crash", 99)], some "user"⟩, true) ∧
    ¬ (99 : ℤ) ≤ 10 := by
  refine ⟨by decide, by decide⟩

/-- C6 amended: after every successful `load`, every entry maps a
non-empty trimmed term to an integer score (no range restriction is
enforced), terms are unique, and assignment is last-write-wins.  -/
theorem load_success_invariants (st : KeywordDictionary)
    (uf : SourceFile (String × Option ℤ))
    (af : SourceFile (String × Option (Option ℤ)))
    (st' : KeywordDictionary) (h : load st uf af = (st', true)) :
    (∀ e ∈ st'.keywords, e.1 ≠ "" ∧ trimmed e.1) ∧
    (st'.keywords.map Prod.fst).Nodup ∧
    (∀ (l : List (String × ℤ)) (k : String) (v : ℤ),
      (dictInsert l k v).lookup k = some v) := by
  have hmain : (∀ e ∈ st'.keywords, e.1 ≠ "" ∧ trimmed e.1) ∧
      (st'.keywords.map Prod.fst).Nodup := by
    rcases load_success_keywords h with ⟨rows, hk⟩ | ⟨rows, hk⟩
    · rw [hk]
      exact build_user_keywords_good rows [] (by intro e he; cases he) (by simp)
    · rw [hk]
      exact build_auto_keywords_good rows [] (by intro e he; cases he) (by simp)
  exact ⟨hmain.1, hmain.2, dictInsert_lookup⟩

/-- Witness for C6 (amended): a curated file with a padded term loads as
the trimmed non-empty unique key. -/
theorem load_success_invariants_witness :
    (∀ e ∈ ([("abc", 99)] : List (String × ℤ)), e.1 ≠ "" ∧ trimmed e.1) ∧
    (([("abc", 99)] : List (String × ℤ)).map Prod.fst).Nodup ∧
    (∀ (l : List (String × ℤ)) (k : String) (v : ℤ),
      (dictInsert l k v).lookup k = some v) :=
  load_success_invariants ⟨[("z", 9)], none⟩
    (some (Except.ok [(" abc ", some 99)])) none ⟨[("abc", 99)], some "user"⟩
    (by decide)

/-- Witness for C4 (amended) at a concrete curated file. -/
theorem load_never_mixes_witness :
    (load ⟨[], none⟩ (some (Except.ok [("a", some 3)])) none).1.keywords =
      ([] : List (String × ℤ)) ∨
    (∃ rows, (some (Except.ok [("a", some 3)]) :
        SourceFile (String × Option ℤ)) = some (Except.ok rows) ∧
      ∀ e ∈ (load ⟨[], none⟩ (some (Except.ok [("a", some 3)])) none).1.keywords,
        user_entry_origin rows e) ∨
    (∃ rows, (none : SourceFile (String × Option (Option ℤ))) =
        some (Except.ok rows) ∧
      ∀ e ∈ (load ⟨[], none⟩ (some (Except.ok [("a", some 3)])) none).1.keywords,
        auto_entry_origin rows e) :=
  load_never_mixes_old_and_new ⟨[], none⟩ (some (Except.ok [("a", some 3)])) none
